import Mathlib

/-!
Verification of the easycontainers container-lifecycle library.

The development shallowly embeds the two Go source files:

* `easycontainers.go` (port allocation, cleanup helpers, the command
  runner `RunCommandWithTimeout`);
* `mysql.go` (the `MySQL` handle, its constructor, and the `Container`
  entry point driving the launch / seed / await-ready / workload
  sequence with deferred cleanup).

External effects (file system, docker engine, the workload closure) are
supplied through an explicit environment of outcomes; `Container`
becomes a pure function from the handle and that environment to a final
outcome together with a trace of the observable events it performed.
-/

set_option autoImplicit false

namespace EasyContainers

/-- Namespace prefix applied to every container and temp-file name
(source: `const prefix = "easycontainers-"`). -/
def prefixStr : String := "easycontainers-"

/-- The `MySQL` struct from `mysql.go`: container name, host port, an
optional sql-file path and an optional inline query. -/
structure MySQL where
  ContainerName : String
  Port : Nat
  Path : String
  Query : String
deriving Repr, DecidableEq

/-- Outcome of the caller-supplied workload closure `f`: it can return
`nil`, return an error, or panic. -/
inductive WorkloadOutcome where
  | ok
  | err (e : String)
  | panics
deriving Repr, DecidableEq

/-- Result of one `Container` invocation as seen by the caller: a `nil`
return, an error return, or a propagating panic. -/
inductive Outcome where
  | ok
  | err (e : String)
  | panicked
deriving Repr, DecidableEq

/-- The external commands `Container` hands to `RunCommandWithTimeout`,
in the order they are appended to `cmdList`: the `docker run` launch,
the optional `docker cp` of the seed script (recorded with the script
text), and the in-container poll for the readiness marker table. -/
inductive Cmd where
  | runContainer
  | copySeed (script : String)
  | waitForInit
deriving Repr, DecidableEq

/-- Observable events of one `Container` invocation: the pre-emptive
`CleanupContainer` call, the deferred `CleanupContainer` call, the
execution of an external command, and the invocation of the workload
closure. -/
inductive Event where
  | preCleanup
  | deferredCleanup
  | ranCmd (c : Cmd)
  | workloadInvoked
deriving Repr, DecidableEq

/-- Environment of external outcomes for one `Container` invocation.
Each field is the result the corresponding effect would produce if the
control flow reaches it.  The two cleanup fields record the error (if
any) of the corresponding `CleanupContainer` call; the Go code discards
both return values, which is why no later definition reads them. -/
structure Env where
  /-- Result of `ioutil.ReadFile` on the sql file (consulted only when
  `Path` is nonempty). -/
  readFileResult : Except String String
  /-- Result of `ioutil.TempFile`. -/
  tempFileResult : Except String Unit
  /-- Result of `os.Chmod` on the temp file. -/
  chmodResult : Except String Unit
  /-- Result of `io.Copy` writing the script into the temp file. -/
  writeResult : Except String Unit
  /-- Error of the pre-emptive `CleanupContainer` call, if it failed. -/
  preCleanupErr : Option String
  /-- Error of the deferred `CleanupContainer` call, if it failed. -/
  deferredCleanupErr : Option String
  /-- Result of `RunCommandWithTimeout` on the `docker run` launch. -/
  runCmdResult : Except String Unit
  /-- Result of `RunCommandWithTimeout` on the `docker cp` seed copy. -/
  copyCmdResult : Except String Unit
  /-- Result of `RunCommandWithTimeout` on the await-ready poll, in the
  case where a seed script creating the marker table was copied in. -/
  waitResult : Except String Unit
  /-- Output of `Logs(m.ContainerName)` at failure time. -/
  logs : String
  /-- Outcome of the workload closure `f`. -/
  workload : WorkloadOutcome
deriving Repr

/-- The synthetic ready-marker statement appended to every seed script
(source comment: the table `mysql.z_z_` is created after all the other
sql has run, so polling it detects full initialization). -/
def markerStmt : String := "CREATE TABLE mysql.z_z_(id integer);"

/-- The sql accumulated by `Container` before seeding: the file
contents when `Path` is nonempty, then `"; "` and the inline `Query`
when `Query` is nonempty. -/
def buildSQL (path fileContents query : String) : String :=
  let sql := if path ≠ "" then fileContents else ""
  if query ≠ "" then sql ++ "; " ++ query else sql

/-- The full script written to the temp file: the accumulated sql
followed by `";"` and the marker statement. -/
def seedScript (sql : String) : String := sql ++ ";" ++ markerStmt

/-- Model of Go's `fmt.Sprintln`: operands joined by single spaces with
a trailing newline. -/
def sprintln (parts : List String) : String :=
  String.intercalate " " parts ++ "\n"

/-- The log-enriched error built by `Container` when a command fails
and `Logs` returns nonempty output
(`errors.New(fmt.Sprintln(err, "", " -- CONTAINER LOGS -- ", "", logs))`). -/
def enrichWithLogs (e logs : String) : String :=
  sprintln [e, "", " -- CONTAINER LOGS -- ", "", logs]

/-- Error message produced by `RunCommandWithTimeout` when the timer
fires first. -/
def timeoutMsg : String := "container timed out"

/-- Error wrapping applied by `Container` to a failing command's error:
enriched with the captured container logs when they are nonempty,
returned unchanged otherwise. -/
def wrapErr (env : Env) (e : String) : String :=
  if env.logs ≠ "" then enrichWithLogs e env.logs else e

/-- Outcome of one command of `cmdList`.  The launch and the seed copy
take their outcomes from the environment.  The await-ready poll queries
the marker table `mysql.z_z_` from inside the container; that table is
created only by the seed script (source comment at the marker), so when
no seed script was configured the `until` loop never succeeds and the
runner times out after its one-minute limit; when a seed script was
copied the outcome is the environment's `waitResult`. -/
def cmdResult (env : Env) (seeded : Bool) : Cmd → Except String Unit
  | .runContainer => env.runCmdResult
  | .copySeed _ => env.copyCmdResult
  | .waitForInit => if seeded then env.waitResult else .error timeoutMsg

/-- The `for _, c := range cmdList` loop: runs each command in order,
stopping at the first failure; returns the first raw error (if any) and
the trace of commands actually executed. -/
def runCmds (env : Env) (seeded : Bool) : List Cmd → Except String Unit × List Event
  | [] => (.ok (), [])
  | c :: rest =>
    match cmdResult env seeded c with
    | .ok _ =>
      let r := runCmds env seeded rest
      (r.1, .ranCmd c :: r.2)
    | .error e => (.error e, [.ranCmd c])

/-- Maps the workload closure's outcome to the outcome of `Container`:
a returned value or error propagates unchanged, a panic propagates as a
panic. -/
def workloadOutcome : WorkloadOutcome → Outcome
  | .ok => .ok
  | .err e => .err e
  | .panics => .panicked

/-- Runs the command list and, if every command succeeded, invokes the
workload closure; a failing command's error is wrapped with the
container logs per `Container`'s error path. -/
def runAll (env : Env) (cmds : List Cmd) (seeded : Bool) : Outcome × List Event :=
  match runCmds env seeded cmds with
  | (.error e, tr) => (.err (wrapErr env e), tr)
  | (.ok _, tr) => (workloadOutcome env.workload, tr ++ [.workloadInvoked])

/-- The file-reading step of `Container`: `ioutil.ReadFile` is invoked
only when `Path` is nonempty; otherwise the step trivially yields the
empty contents. -/
def fileRead (m : MySQL) (env : Env) : Except String String :=
  if m.Path ≠ "" then env.readFileResult else .ok ""

/-- Body of `Container` between the two `CleanupContainer` calls: read
the sql file when `Path` is set, build the sql, and when it is nonempty
create/chmod/write the temp seed file and add the `docker cp` command;
then run the commands and, on success, the workload. -/
def containerBody (m : MySQL) (env : Env) : Outcome × List Event :=
  match fileRead m env with
  | .error e => (.err e, [])
  | .ok contents =>
    let sql := buildSQL m.Path contents m.Query
    if sql ≠ "" then
      match env.tempFileResult with
      | .error e => (.err e, [])
      | .ok _ =>
        match env.chmodResult with
        | .error e => (.err e, [])
        | .ok _ =>
          match env.writeResult with
          | .error e => (.err e, [])
          | .ok _ =>
            runAll env [.runContainer, .copySeed (seedScript sql), .waitForInit] true
    else
      runAll env [.runContainer, .waitForInit] false

/-- The `Container` method: pre-emptive `CleanupContainer` (return
value discarded), the body, and the deferred `CleanupContainer` (return
value discarded), which Go's `defer` runs on every exit path including
panics. -/
def containerRun (m : MySQL) (env : Env) : Outcome × List Event :=
  let r := containerBody m env
  (r.1, .preCleanup :: r.2 ++ [.deferredCleanup])

/-- The file contents `Container` works with: the read result when it
succeeded, irrelevant otherwise (the error path returns first). -/
def contentsOf (env : Env) : String :=
  match env.readFileResult with
  | .ok c => c
  | .error _ => ""

/-- The sql `Container` accumulates for a given handle and environment
(empty exactly when no seed script is written). -/
def seedSQLOf (m : MySQL) (env : Env) : String :=
  buildSQL m.Path (contentsOf env) m.Query

/-- Whether this invocation seeds the container (writes and copies a
script carrying the ready marker). -/
def seededOf (m : MySQL) (env : Env) : Bool :=
  seedSQLOf m env != ""

/-- The command list `Container` builds for a given handle and
environment: launch, then the seed copy when a script is configured,
then the await-ready poll. -/
def cmdsOf (m : MySQL) (env : Env) : List Cmd :=
  if seedSQLOf m env ≠ "" then
    [.runContainer, .copySeed (seedScript (seedSQLOf m env)), .waitForInit]
  else
    [.runContainer, .waitForInit]

/-- The steps of `Container` before the command loop all succeeded: the
file read (when `Path` is set) and, when a script is to be seeded, the
temp-file creation, chmod and write. -/
def preludeOk (m : MySQL) (env : Env) : Prop :=
  (m.Path ≠ "" → env.readFileResult.isOk = true) ∧
  (seedSQLOf m env ≠ "" →
    env.tempFileResult = .ok () ∧ env.chmodResult = .ok () ∧
    env.writeResult = .ok ())

/-- The raw error of the first failing command of the loop, if any. -/
def firstCmdErr (m : MySQL) (env : Env) : Option String :=
  match (runCmds env (seededOf m env) (cmdsOf m env)).1 with
  | .ok _ => none
  | .error e => some e

/-- Sample environment in which every external effect succeeds, the
seed file holds one `CREATE TABLE` statement, the logs are empty and
the workload returns `nil`. -/
def allOkEnv : Env :=
  { readFileResult := .ok "CREATE TABLE t();"
    tempFileResult := .ok ()
    chmodResult := .ok ()
    writeResult := .ok ()
    preCleanupErr := none
    deferredCleanupErr := none
    runCmdResult := .ok ()
    copyCmdResult := .ok ()
    waitResult := .ok ()
    logs := ""
    workload := .ok }

/-- Sample handle with both a file path and an inline query. -/
def exMySQL : MySQL :=
  { ContainerName := "easycontainers-mysql-svc"
    Port := 3306
    Path := "fixtures/schema.sql"
    Query := "INSERT INTO t VALUES (1);" }

/-- Environment identical to `allOkEnv` except that the pre-emptive
`CleanupContainer` call fails — which is what actually happens whenever
no leftover container with the same name exists, since `docker stop`
then runs with no argument. -/
def preFailEnv : Env :=
  { allOkEnv with preCleanupErr := some "error in command : exit status 1 -- " }

/-- Environment identical to `allOkEnv` except that the launch command
fails and the container logs are nonempty. -/
def launchFailEnv : Env :=
  { allOkEnv with
      runCmdResult := .error "error in command : exit status 125 -- "
      logs := "mysqld: initialization error" }

/-- Environment with every effect succeeding and the seed file holding
the given contents. -/
def happySeedEnv (contents : String) : Env :=
  { allOkEnv with readFileResult := .ok contents }

/-! ### Port allocator (`getFreePort`, `allocatedPorts`) -/

/-- One answer from the OS when `getFreePort` resolves `localhost:0`
and binds a listener: either a resolution/bind error or the port number
the OS assigned. -/
inductive OsOffer where
  | failure (e : String)
  | port (p : Nat)
deriving Repr, DecidableEq

/-- Error message of `getFreePort` when ten consecutive offers were
already allocated. -/
def exhaustedMsg : String := "took too long to find free port"

/-- The `for i := 0; i < 10; i++` loop of `getFreePort`: consult the
OS offer for attempt `i`; a resolution/bind failure returns that error
at once; a port already in `allocatedPorts` is skipped and the next
attempt made; a fresh port is inserted into the set and returned.  The
`fuel` argument counts the remaining attempts (10 at the top call). -/
def getFreePortAux (offer : Nat → OsOffer) : Nat → Nat → Finset Nat →
    Except String Nat × Finset Nat
  | _, 0, alloc => (.error exhaustedMsg, alloc)
  | i, fuel + 1, alloc =>
    match offer i with
    | .failure e => (.error e, alloc)
    | .port p =>
      if p ∈ alloc then getFreePortAux offer (i + 1) fuel alloc
      else (.ok p, insert p alloc)

/-- `getFreePort`: the loop above with ten attempts, starting from the
current process-wide `allocatedPorts` set and returning the updated
set. -/
def getFreePort (offer : Nat → OsOffer) (alloc : Finset Nat) :
    Except String Nat × Finset Nat :=
  getFreePortAux offer 0 10 alloc

/-- A sequence of `getFreePort` calls threading the process-wide
`allocatedPorts` set, one OS offer stream per call; returns the list of
successfully allocated ports and the final set. -/
def allocSeq (alloc : Finset Nat) : List (Nat → OsOffer) → List Nat × Finset Nat
  | [] => ([], alloc)
  | o :: os =>
    match getFreePort o alloc with
    | (.ok p, a) =>
      let r := allocSeq a os
      (p :: r.1, r.2)
    | (.error _, a) => allocSeq a os

/-! ### Command runner (`RunCommandWithTimeout`) -/

/-- One external operation handed to `RunCommandWithTimeout`: the time
it takes to complete, the error detail of `cmd.Run` when the exit
status is non-zero (`none` means exit status zero), and the standard
error output captured into the buffer. -/
structure Operation where
  duration : Nat
  exitErr : Option String
  stderr : String
deriving Repr, DecidableEq

/-- The error string `RunCommandWithTimeout` builds for a non-zero
exit (`fmt.Errorf("error in command : %s -- %s", err, b.String())`). -/
def runCmdErrMsg (detail stderrOut : String) : String :=
  "error in command : " ++ detail ++ " -- " ++ stderrOut

/-- `RunCommandWithTimeout`: races the operation's completion against a
timer.  If the operation completes strictly before the timer, its
result is returned (wrapping a non-zero exit with the captured standard
error) at the operation's completion time; otherwise the timeout error
is returned at the timer's firing time, without waiting for the
operation (the Go `select` picks nondeterministically on an exact tie;
the model resolves the tie to the timer).  The second component is the
time at which the call returns. -/
def RunCommandWithTimeout (op : Operation) (timeout : Nat) :
    Except String Unit × Nat :=
  if op.duration < timeout then
    match op.exitErr with
    | none => (.ok (), op.duration)
    | some d => (.error (runCmdErrMsg d op.stderr), op.duration)
  else
    (.error timeoutMsg, timeout)

/-! ### Cleanup (`CleanupContainer`) -/

/-- `CleanupContainer` acting on the engine's set of running container
names: `docker ps` filters on the exact name (`^/name$`) and `docker
stop` receives the matching ids.  With no match, `docker stop` runs
with no argument and exits non-zero, so the call returns an error while
leaving every container running; with a match, the matching containers
are stopped. -/
def CleanupContainer (running : List String) (name : String) :
    Except String Unit × List String :=
  let matching := running.filter (fun c => c == name)
  if matching.isEmpty then
    (.error ("error in command : exit status 1 -- " ++
      "docker stop requires at least 1 argument\n"), running)
  else
    (.ok (), running.filter (fun c => ¬ c == name))

/-! ### Constructor (`NewMySQL`) -/

/-- Result of a Go function that can panic instead of returning. -/
inductive PanicOr (α : Type) where
  | panicked (e : String)
  | ok (a : α)
deriving Repr

/-- `NewMySQL`: allocates a port with `getFreePort`; panics with the
allocation error when that fails, and otherwise returns the handle
(name prefixed with `prefix + "mysql-"`, the allocated port, no path,
no query) together with the port. -/
def NewMySQL (offer : Nat → OsOffer) (alloc : Finset Nat) (name : String) :
    PanicOr (MySQL × Nat) × Finset Nat :=
  match getFreePort offer alloc with
  | (.error e, a) => (.panicked e, a)
  | (.ok p, a) =>
    (.ok ({ ContainerName := prefixStr ++ "mysql-" ++ name, Port := p,
            Path := "", Query := "" }, p), a)

/-! ### Lemmas about the port allocator -/

lemma getFreePortAux_ok (offer : Nat → OsOffer) :
    ∀ (fuel i : Nat) (alloc : Finset Nat) (p : Nat) (a : Finset Nat),
      getFreePortAux offer i fuel alloc = (.ok p, a) →
      p ∉ alloc ∧ a = insert p alloc := by
  intro fuel
  induction fuel with
  | zero => intro i alloc p a h; simp [getFreePortAux] at h
  | succ fuel ih =>
    intro i alloc p a h
    rw [getFreePortAux] at h
    cases hoff : offer i with
    | failure e => rw [hoff] at h; simp at h
    | port q =>
      rw [hoff] at h
      dsimp only at h
      by_cases hq : q ∈ alloc
      · rw [if_pos hq] at h
        exact ih (i + 1) alloc p a h
      · rw [if_neg hq] at h
        simp at h
        obtain ⟨h1, h2⟩ := h
        subst h1
        exact ⟨hq, h2.symm⟩

lemma getFreePortAux_error (offer : Nat → OsOffer) :
    ∀ (fuel i : Nat) (alloc : Finset Nat) (e : String) (a : Finset Nat),
      getFreePortAux offer i fuel alloc = (.error e, a) → a = alloc := by
  intro fuel
  induction fuel with
  | zero =>
    intro i alloc e a h
    simp [getFreePortAux] at h
    exact h.2.symm
  | succ fuel ih =>
    intro i alloc e a h
    rw [getFreePortAux] at h
    cases hoff : offer i with
    | failure e2 =>
      rw [hoff] at h
      simp at h
      exact h.2.symm
    | port q =>
      rw [hoff] at h
      dsimp only at h
      by_cases hq : q ∈ alloc
      · rw [if_pos hq] at h
        exact ih (i + 1) alloc e a h
      · rw [if_neg hq] at h; simp at h

lemma getFreePort_ok {offer : Nat → OsOffer} {alloc : Finset Nat} {p : Nat}
    {a : Finset Nat} (h : getFreePort offer alloc = (.ok p, a)) :
    p ∉ alloc ∧ a = insert p alloc :=
  getFreePortAux_ok offer 10 0 alloc p a h

lemma getFreePort_subset (offer : Nat → OsOffer) (alloc : Finset Nat) :
    alloc ⊆ (getFreePort offer alloc).2 := by
  rcases h : getFreePort offer alloc with ⟨r, a⟩
  cases r with
  | ok p =>
    obtain ⟨-, rfl⟩ := getFreePort_ok h
    exact Finset.subset_insert p alloc
  | error e =>
    have := getFreePortAux_error offer 10 0 alloc e a h
    subst this
    exact Finset.Subset.refl _

lemma allocSeq_spec :
    ∀ (os : List (Nat → OsOffer)) (alloc : Finset Nat),
      (∀ p ∈ (allocSeq alloc os).1, p ∉ alloc) ∧
      (allocSeq alloc os).1.Nodup ∧
      alloc ⊆ (allocSeq alloc os).2 := by
  intro os
  induction os with
  | nil => intro alloc; simp [allocSeq]
  | cons o os ih =>
    intro alloc
    rcases h : getFreePort o alloc with ⟨r, a⟩
    cases r with
    | error e =>
      have ha : a = alloc := getFreePortAux_error o 10 0 alloc e a h
      simpa [allocSeq, h, ha] using ih alloc
    | ok p =>
      obtain ⟨hp, rfl⟩ := getFreePort_ok h
      obtain ⟨ih1, ih2, ih3⟩ := ih (insert p alloc)
      refine ⟨?_, ?_, ?_⟩
      · intro q hq
        simp only [allocSeq, h, List.mem_cons] at hq
        rcases hq with rfl | hq
        · exact hp
        · exact fun hc => ih1 q hq (Finset.mem_insert_of_mem hc)
      · simp only [allocSeq, h, List.nodup_cons]
        exact ⟨fun hc => ih1 p hc (Finset.mem_insert_self p alloc), ih2⟩
      · simp only [allocSeq, h]
        exact (Finset.subset_insert p alloc).trans ih3

lemma getFreePortAux_all_allocated (offer : Nat → OsOffer) (alloc : Finset Nat) :
    ∀ (fuel i : Nat),
      (∀ j, j < fuel → ∃ p ∈ alloc, offer (i + j) = OsOffer.port p) →
      getFreePortAux offer i fuel alloc = (.error exhaustedMsg, alloc) := by
  intro fuel
  induction fuel with
  | zero => intro i _; rfl
  | succ fuel ih =>
    intro i h
    obtain ⟨p, hp, hoff⟩ := h 0 (Nat.succ_pos fuel)
    rw [Nat.add_zero] at hoff
    rw [getFreePortAux, hoff]
    dsimp only
    rw [if_pos hp]
    exact ih (i + 1) fun j hj => by
      obtain ⟨q, hq, hoffq⟩ := h (j + 1) (Nat.succ_lt_succ hj)
      exact ⟨q, hq, by rw [← hoffq]; congr 1; omega⟩

lemma getFreePortAux_failure_at (offer : Nat → OsOffer) (alloc : Finset Nat)
    (e : String) :
    ∀ (k fuel i : Nat), k < fuel →
      (∀ j, j < k → ∃ p ∈ alloc, offer (i + j) = OsOffer.port p) →
      offer (i + k) = OsOffer.failure e →
      getFreePortAux offer i fuel alloc = (.error e, alloc) := by
  intro k
  induction k with
  | zero =>
    intro fuel i hfuel _ hoff
    rw [Nat.add_zero] at hoff
    cases fuel with
    | zero => omega
    | succ fuel => rw [getFreePortAux, hoff]
  | succ k ih =>
    intro fuel i hfuel h hoff
    cases fuel with
    | zero => omega
    | succ fuel =>
      obtain ⟨p, hp, hoffp⟩ := h 0 (Nat.succ_pos k)
      rw [Nat.add_zero] at hoffp
      rw [getFreePortAux, hoffp]
      dsimp only
      rw [if_pos hp]
      refine ih fuel (i + 1) (by omega) ?_ ?_
      · intro j hj
        obtain ⟨q, hq, hoffq⟩ := h (j + 1) (Nat.succ_lt_succ hj)
        exact ⟨q, hq, by rw [← hoffq]; congr 1; omega⟩
      · rw [← hoff]; congr 1; omega

lemma getFreePortAux_congr (offer offer' : Nat → OsOffer) (alloc : Finset Nat) :
    ∀ (fuel i : Nat), (∀ j, j < fuel → offer (i + j) = offer' (i + j)) →
      getFreePortAux offer i fuel alloc = getFreePortAux offer' i fuel alloc := by
  intro fuel
  induction fuel with
  | zero => intro i _; rfl
  | succ fuel ih =>
    intro i h
    have h0 : offer i = offer' i := by
      have := h 0 (Nat.succ_pos fuel)
      rwa [Nat.add_zero] at this
    rw [getFreePortAux, getFreePortAux, ← h0]
    cases offer i with
    | failure e => rfl
    | port p =>
      dsimp only
      by_cases hp : p ∈ alloc
      · rw [if_pos hp, if_pos hp]
        exact ih (i + 1) fun j hj => by
          have := h (j + 1) (Nat.succ_lt_succ hj)
          rwa [show i + (j + 1) = i + 1 + j by omega] at this
      · rw [if_neg hp, if_neg hp]

/-! ### Claim theorems for the leaf components -/

/-- C3: every successful `getFreePort` call returns a port outside the
current allocated-port set and inserts it before returning; the set
never shrinks under any call; and the ports returned by any sequence of
successful allocations threading the set are pairwise distinct. -/
theorem ports_pairwise_distinct :
    (∀ (offer : Nat → OsOffer) (alloc : Finset Nat) (p : Nat) (a : Finset Nat),
        getFreePort offer alloc = (.ok p, a) → p ∉ alloc ∧ a = insert p alloc) ∧
    (∀ (offer : Nat → OsOffer) (alloc : Finset Nat),
        alloc ⊆ (getFreePort offer alloc).2) ∧
    (∀ (alloc : Finset Nat) (os : List (Nat → OsOffer)),
        (allocSeq alloc os).1.Nodup ∧ alloc ⊆ (allocSeq alloc os).2) :=
  ⟨fun _ _ _ _ h => getFreePort_ok h,
   getFreePort_subset,
   fun alloc os => ⟨(allocSeq_spec os alloc).2.1, (allocSeq_spec os alloc).2.2⟩⟩

/-- Witness for C3 at a concrete offer stream and empty set. -/
theorem ports_pairwise_distinct_witness :
    (7 : Nat) ∉ (∅ : Finset Nat) ∧
    insert 7 (∅ : Finset Nat) = insert 7 (∅ : Finset Nat) :=
  ports_pairwise_distinct.1 (fun _ => OsOffer.port 7) ∅ 7 (insert 7 ∅) rfl

/-- C8: when the OS offers an already-allocated port on each of the ten
attempts, `getFreePort` fails with the allocation-exhausted error; a
resolution/bind failure at any attempt is returned immediately as a
fatal error without further retries; and the result never depends on
offers beyond the first ten, so at most ten attempts are made. -/
theorem getFreePort_retry_policy :
    (∀ (offer : Nat → OsOffer) (alloc : Finset Nat),
        (∀ j, j < 10 → ∃ p ∈ alloc, offer j = OsOffer.port p) →
        getFreePort offer alloc = (.error exhaustedMsg, alloc)) ∧
    (∀ (offer : Nat → OsOffer) (alloc : Finset Nat) (e : String) (k : Nat),
        k < 10 → (∀ j, j < k → ∃ p ∈ alloc, offer j = OsOffer.port p) →
        offer k = OsOffer.failure e →
        getFreePort offer alloc = (.error e, alloc)) ∧
    (∀ (offer offer' : Nat → OsOffer) (alloc : Finset Nat),
        (∀ j, j < 10 → offer j = offer' j) →
        getFreePort offer alloc = getFreePort offer' alloc) := by
  refine ⟨?_, ?_, ?_⟩
  · intro offer alloc h
    exact getFreePortAux_all_allocated offer alloc 10 0 fun j hj => by
      simpa using h j hj
  · intro offer alloc e k hk h hoff
    exact getFreePortAux_failure_at offer alloc e k 10 0 hk
      (fun j hj => by simpa using h j hj) (by simpa using hoff)
  · intro offer offer' alloc h
    exact getFreePortAux_congr offer offer' alloc 10 0 fun j hj => by
      simpa using h j hj

/-- Witness for C8: ten offers of an allocated port exhaust the
allocator; an immediate bind failure is fatal. -/
theorem getFreePort_retry_policy_witness :
    getFreePort (fun _ => OsOffer.port 9) {9} = (.error exhaustedMsg, {9}) ∧
    getFreePort (fun _ => OsOffer.failure "bind failed") {9} =
      (.error "bind failed", {9}) :=
  ⟨getFreePort_retry_policy.1 _ _ fun j _ => ⟨9, Finset.mem_singleton_self 9, rfl⟩,
   getFreePort_retry_policy.2.1 _ _ "bind failed" 0 (by omega)
     (fun j hj => absurd hj (Nat.not_lt_zero j)) rfl⟩

/-- C5: the command runner's result is exactly one of three cases: the
operation completes first with exit status zero and the call returns
success at the operation's completion time; the operation completes
first with a non-zero exit and the call returns an error carrying the
captured standard-error output; or the timer fires first and the call
returns the timeout error at the timer's firing time, never later than
the timeout regardless of the operation's duration. -/
theorem runCommand_race (op : Operation) (timeout : Nat) :
    (op.exitErr = none → op.duration < timeout →
      RunCommandWithTimeout op timeout = (.ok (), op.duration)) ∧
    (∀ d, op.exitErr = some d → op.duration < timeout →
      RunCommandWithTimeout op timeout =
        (.error (runCmdErrMsg d op.stderr), op.duration)) ∧
    (timeout ≤ op.duration →
      RunCommandWithTimeout op timeout = (.error timeoutMsg, timeout)) ∧
    (RunCommandWithTimeout op timeout).2 ≤ timeout := by
  refine ⟨?_, ?_, ?_, ?_⟩
  · intro he hd
    simp [RunCommandWithTimeout, hd, he]
  · intro d he hd
    simp [RunCommandWithTimeout, hd, he]
  · intro h
    simp [RunCommandWithTimeout, Nat.not_lt.mpr h]
  · by_cases hd : op.duration < timeout
    · cases he : op.exitErr <;> simp [RunCommandWithTimeout, hd, he] <;> omega
    · simp [RunCommandWithTimeout, hd]

/-- Witness for C5: a never-finishing operation times out at the
timeout; a fast zero-exit operation succeeds at its completion time. -/
theorem runCommand_race_witness :
    RunCommandWithTimeout ⟨1000000, none, ""⟩ 60 = (.error timeoutMsg, 60) ∧
    RunCommandWithTimeout ⟨5, none, ""⟩ 60 = (.ok (), 5) :=
  ⟨(runCommand_race ⟨1000000, none, ""⟩ 60).2.2.1 (by decide),
   (runCommand_race ⟨5, none, ""⟩ 60).1 rfl (by decide)⟩

/-- C10: `NewMySQL` panics with the allocation error whenever
`getFreePort` fails, and on success returns a handle whose `Port`
field equals the port returned alongside it. -/
theorem newMySQL_panic_and_port (offer : Nat → OsOffer) (alloc : Finset Nat)
    (name : String) :
    (∀ e a, getFreePort offer alloc = (.error e, a) →
      (NewMySQL offer alloc name).1 = .panicked e) ∧
    (∀ p a, getFreePort offer alloc = (.ok p, a) →
      ∃ r, NewMySQL offer alloc name = (.ok (r, p), a) ∧ r.Port = p) := by
  constructor
  · intro e a h
    simp [NewMySQL, h]
  · intro p a h
    exact ⟨{ ContainerName := prefixStr ++ "mysql-" ++ name, Port := p,
             Path := "", Query := "" }, by simp [NewMySQL, h], rfl⟩

/-- Witness for C10 at a concrete offer stream. -/
theorem newMySQL_panic_and_port_witness :
    ∃ r, NewMySQL (fun _ => OsOffer.port 5) ∅ "db" =
        (.ok (r, 5), insert 5 ∅) ∧ r.Port = 5 :=
  (newMySQL_panic_and_port (fun _ => OsOffer.port 5) ∅ "db").2 5 (insert 5 ∅) rfl

/-! ### Lemmas about the command loop and the container body -/

lemma runCmds_fst_ok_iff (env : Env) (seeded : Bool) (cmds : List Cmd) :
    (runCmds env seeded cmds).1 = .ok () ↔
      ∀ c ∈ cmds, cmdResult env seeded c = .ok () := by
  induction cmds with
  | nil => simp [runCmds]
  | cons c rest ih =>
    cases h : cmdResult env seeded c with
    | ok u => cases u; simp [runCmds, h, ih]
    | error e => simp [runCmds, h]

lemma runCmds_snd_of_ok (env : Env) (seeded : Bool) (cmds : List Cmd)
    (h : ∀ c ∈ cmds, cmdResult env seeded c = .ok ()) :
    (runCmds env seeded cmds).2 = cmds.map .ranCmd := by
  induction cmds with
  | nil => simp [runCmds]
  | cons c rest ih =>
    have hc : cmdResult env seeded c = .ok () := h c (List.mem_cons_self c rest)
    simp [runCmds, hc, ih fun d hd => h d (List.mem_cons_of_mem c hd)]

lemma runCmds_snd_events (env : Env) (seeded : Bool) (cmds : List Cmd) :
    ∀ ev ∈ (runCmds env seeded cmds).2, ∃ c, ev = Event.ranCmd c := by
  induction cmds with
  | nil => simp [runCmds]
  | cons c rest ih =>
    intro ev hev
    cases h : cmdResult env seeded c with
    | ok u =>
      cases u
      rw [runCmds] at hev
      rw [h] at hev
      dsimp only at hev
      rcases List.mem_cons.mp hev with rfl | hev
      · exact ⟨c, rfl⟩
      · exact ih ev hev
    | error e =>
      rw [runCmds] at hev
      rw [h] at hev
      dsimp only at hev
      rcases List.mem_singleton.mp hev with rfl
      exact ⟨c, rfl⟩

lemma runAll_events (env : Env) (cmds : List Cmd) (seeded : Bool) :
    ∀ ev ∈ (runAll env cmds seeded).2,
      ev = Event.workloadInvoked ∨ ∃ c, ev = Event.ranCmd c := by
  intro ev hev
  rcases h : runCmds env seeded cmds with ⟨r, tr⟩
  cases r with
  | error e =>
    rw [runAll, h] at hev
    dsimp only at hev
    right
    have := runCmds_snd_events env seeded cmds ev
    rw [h] at this
    exact this hev
  | ok u =>
    cases u
    rw [runAll, h] at hev
    dsimp only at hev
    rcases List.mem_append.mp hev with hev | hev
    · right
      have := runCmds_snd_events env seeded cmds ev
      rw [h] at this
      exact this hev
    · exact Or.inl (List.mem_singleton.mp hev)

lemma runAll_workload_iff (env : Env) (cmds : List Cmd) (seeded : Bool) :
    Event.workloadInvoked ∈ (runAll env cmds seeded).2 ↔
      ∀ c ∈ cmds, cmdResult env seeded c = .ok () := by
  rcases h : runCmds env seeded cmds with ⟨r, tr⟩
  cases r with
  | error e =>
    rw [runAll, h]
    dsimp only
    constructor
    · intro hev
      have := runCmds_snd_events env seeded cmds Event.workloadInvoked
      rw [h] at this
      obtain ⟨c, hc⟩ := this hev
      exact absurd hc (by simp)
    · intro hall
      have := (runCmds_fst_ok_iff env seeded cmds).mpr hall
      rw [h] at this
      simp at this
  | ok u =>
    cases u
    rw [runAll, h]
    dsimp only
    constructor
    · intro _
      exact (runCmds_fst_ok_iff env seeded cmds).mp (by rw [h])
    · intro _
      simp

lemma runAll_of_all_ok (env : Env) (cmds : List Cmd) (seeded : Bool)
    (h : ∀ c ∈ cmds, cmdResult env seeded c = .ok ()) :
    runAll env cmds seeded =
      (workloadOutcome env.workload, cmds.map .ranCmd ++ [.workloadInvoked]) := by
  rcases hr : runCmds env seeded cmds with ⟨r, tr⟩
  cases r with
  | error e =>
    have := (runCmds_fst_ok_iff env seeded cmds).mpr h
    rw [hr] at this
    simp at this
  | ok u =>
    cases u
    have htr := runCmds_snd_of_ok env seeded cmds h
    rw [hr] at htr
    dsimp only at htr
    rw [runAll, hr, htr]

lemma runAll_no_workload (env : Env) (cmds : List Cmd) (seeded : Bool)
    (h : Event.workloadInvoked ∉ (runAll env cmds seeded).2) :
    ∃ e, (runAll env cmds seeded).1 = .err (wrapErr env e) := by
  rcases hr : runCmds env seeded cmds with ⟨r, tr⟩
  cases r with
  | error e => exact ⟨e, by rw [runAll, hr]⟩
  | ok u =>
    cases u
    exact absurd (by rw [runAll, hr]; simp) h

lemma buildSQL_fileRead (m : MySQL) (env : Env) (contents : String)
    (h : fileRead m env = .ok contents) :
    buildSQL m.Path contents m.Query = seedSQLOf m env := by
  by_cases hP : m.Path = ""
  · simp [buildSQL, seedSQLOf, hP]
  · rw [fileRead, if_pos hP] at h
    rw [seedSQLOf, contentsOf, h]

lemma containerBody_events (m : MySQL) (env : Env) :
    ∀ ev ∈ (containerBody m env).2,
      ev = Event.workloadInvoked ∨ ∃ c, ev = Event.ranCmd c := by
  intro ev hev
  rw [containerBody] at hev
  cases hf : fileRead m env with
  | error e => rw [hf] at hev; simp at hev
  | ok contents =>
    rw [hf] at hev
    dsimp only at hev
    by_cases hsql : buildSQL m.Path contents m.Query = ""
    · rw [if_neg (by simpa using hsql)] at hev
      exact runAll_events env _ false ev hev
    · rw [if_pos hsql] at hev
      cases ht : env.tempFileResult with
      | error e => rw [ht] at hev; simp at hev
      | ok u =>
        cases u
        rw [ht] at hev
        dsimp only at hev
        cases hc : env.chmodResult with
        | error e => rw [hc] at hev; simp at hev
        | ok u =>
          cases u
          rw [hc] at hev
          dsimp only at hev
          cases hw : env.writeResult with
          | error e => rw [hw] at hev; simp at hev
          | ok u =>
            cases u
            rw [hw] at hev
            dsimp only at hev
            exact runAll_events env _ true ev hev

lemma containerBody_no_deferred (m : MySQL) (env : Env) :
    Event.deferredCleanup ∉ (containerBody m env).2 := by
  intro h
  rcases containerBody_events m env Event.deferredCleanup h with h | ⟨c, h⟩ <;>
    simp at h

lemma containerRun_cleanup_invariant (m : MySQL) (env : Env)
    (x y : Option String) :
    containerRun m { env with preCleanupErr := x, deferredCleanupErr := y } =
      containerRun m env := rfl

lemma sep_append_ne_empty (a b : String) : a ++ "; " ++ b ≠ "" := by
  intro hcon
  have hlen := congrArg String.length hcon
  rw [String.length_append, String.length_append] at hlen
  have h2 : ("; " : String).length = 2 := rfl
  have h0 : ("" : String).length = 0 := rfl
  omega

lemma containerBody_of_workload (m : MySQL) (env : Env)
    (h : Event.workloadInvoked ∈ (containerBody m env).2) :
    seedSQLOf m env ≠ "" ∧
    env.runCmdResult = .ok () ∧
    env.copyCmdResult = .ok () ∧
    env.waitResult = .ok () ∧
    containerBody m env =
      (workloadOutcome env.workload,
       [.ranCmd .runContainer,
        .ranCmd (.copySeed (seedScript (seedSQLOf m env))),
        .ranCmd .waitForInit, .workloadInvoked]) := by
  cases hf : fileRead m env with
  | error e =>
    rw [containerBody, hf] at h
    simp at h
  | ok contents =>
    have hb := buildSQL_fileRead m env contents hf
    by_cases hsql : buildSQL m.Path contents m.Query = ""
    · rw [containerBody, hf] at h
      dsimp only at h
      rw [if_neg (by simpa using hsql)] at h
      have hall := (runAll_workload_iff env _ false).mp h
      have hwait := hall .waitForInit (by simp)
      simp [cmdResult] at hwait
    · cases ht : env.tempFileResult with
      | error e =>
        rw [containerBody, hf] at h
        dsimp only at h
        rw [if_pos hsql, ht] at h
        simp at h
      | ok u =>
        cases u
        cases hc : env.chmodResult with
        | error e =>
          rw [containerBody, hf] at h
          dsimp only at h
          rw [if_pos hsql, ht, hc] at h
          simp at h
        | ok u =>
          cases u
          cases hw : env.writeResult with
          | error e =>
            rw [containerBody, hf] at h
            dsimp only at h
            rw [if_pos hsql, ht, hc, hw] at h
            simp at h
          | ok u =>
            cases u
            have hbody : containerBody m env =
                runAll env [.runContainer,
                  .copySeed (seedScript (buildSQL m.Path contents m.Query)),
                  .waitForInit] true := by
              rw [containerBody, hf]
              dsimp only
              rw [if_pos hsql, ht, hc, hw]
            rw [hbody] at h
            have hall := (runAll_workload_iff env _ true).mp h
            have hrun := hall .runContainer (by simp)
            have hcopy := hall (.copySeed (seedScript (buildSQL m.Path contents m.Query))) (by simp)
            have hwait := hall .waitForInit (by simp)
            simp only [cmdResult, if_true] at hrun hcopy hwait
            refine ⟨by rw [← hb]; exact hsql, hrun, hcopy, hwait, ?_⟩
            rw [hbody, runAll_of_all_ok env _ true hall, ← hb]
            simp

lemma preludeOk_fileRead (m : MySQL) (env : Env) (h : preludeOk m env) :
    ∃ c, fileRead m env = .ok c := by
  by_cases hP : m.Path = ""
  · exact ⟨"", by rw [fileRead, if_neg (by simpa using hP)]⟩
  · have hok := h.1 hP
    cases hr : env.readFileResult with
    | ok c => exact ⟨c, by rw [fileRead, if_pos hP, hr]⟩
    | error e => rw [hr] at hok; simp [Except.isOk, Except.toBool] at hok

lemma containerBody_of_preludeOk (m : MySQL) (env : Env) (h : preludeOk m env) :
    containerBody m env = runAll env (cmdsOf m env) (seededOf m env) := by
  obtain ⟨contents, hf⟩ := preludeOk_fileRead m env h
  have hb := buildSQL_fileRead m env contents hf
  rw [containerBody, hf]
  dsimp only
  by_cases hsql : seedSQLOf m env = ""
  · rw [if_neg (by rw [hb]; simpa using hsql)]
    rw [cmdsOf, if_neg (by simpa using hsql)]
    have : seededOf m env = false := by simp [seededOf, hsql]
    rw [this]
  · have hsql' : buildSQL m.Path contents m.Query ≠ "" := by
      rw [hb]; exact hsql
    rw [if_pos hsql']
    obtain ⟨ht, hc, hw⟩ := h.2 hsql
    rw [ht, hc, hw]
    dsimp only
    have hseed : seededOf m env = true := by simp [seededOf, hsql]
    rw [hb, cmdsOf, if_pos hsql, hseed]

lemma containerBody_no_workload (m : MySQL) (env : Env)
    (h : Event.workloadInvoked ∉ (containerBody m env).2) :
    ∃ e, (containerBody m env).1 = .err e := by
  cases hf : fileRead m env with
  | error e => exact ⟨e, by rw [containerBody, hf]⟩
  | ok contents =>
    by_cases hsql : buildSQL m.Path contents m.Query = ""
    · have hbody : containerBody m env =
          runAll env [.runContainer, .waitForInit] false := by
        rw [containerBody, hf]
        dsimp only
        rw [if_neg (by simpa using hsql)]
      rw [hbody] at h ⊢
      obtain ⟨e, he⟩ := runAll_no_workload env _ false h
      exact ⟨wrapErr env e, he⟩
    · cases ht : env.tempFileResult with
      | error e =>
        exact ⟨e, by rw [containerBody, hf]; dsimp only; rw [if_pos hsql, ht]⟩
      | ok u =>
        cases u
        cases hc : env.chmodResult with
        | error e =>
          exact ⟨e, by rw [containerBody, hf]; dsimp only; rw [if_pos hsql, ht, hc]⟩
        | ok u =>
          cases u
          cases hw : env.writeResult with
          | error e =>
            exact ⟨e, by
              rw [containerBody, hf]; dsimp only; rw [if_pos hsql, ht, hc, hw]⟩
          | ok u =>
            cases u
            have hbody : containerBody m env =
                runAll env [.runContainer,
                  .copySeed (seedScript (buildSQL m.Path contents m.Query)),
                  .waitForInit] true := by
              rw [containerBody, hf]
              dsimp only
              rw [if_pos hsql, ht, hc, hw]
            rw [hbody] at h ⊢
            obtain ⟨e, he⟩ := runAll_no_workload env _ true h
            exact ⟨wrapErr env e, he⟩

lemma workload_mem_containerRun (m : MySQL) (env : Env) :
    Event.workloadInvoked ∈ (containerRun m env).2 ↔
      Event.workloadInvoked ∈ (containerBody m env).2 := by
  rw [containerRun]
  simp

/-! ### Claim theorems for the container lifecycle -/

/-- C1 counterexample: in a run where the pre-emptive cleanup fails
(which is the normal case, since `docker stop` errors when no leftover
container matches the name) but every later step succeeds, the workload
closure is still invoked, so the workload is not gated on the success
of the pre-emptive cleanup step. -/
theorem workload_runs_despite_precleanup_failure :
    preFailEnv.preCleanupErr ≠ none ∧
    Event.workloadInvoked ∈ (containerRun exMySQL preFailEnv).2 := by
  constructor
  · decide
  · decide

/-- C1 (amended): whenever the workload closure is invoked, the launch
command, the seed copy and the await-ready poll all succeeded first (in
particular a seed script was configured, since the readiness marker is
created only by the seed script), and the events of the invocation are
exactly the pre-emptive cleanup, then launch, then seed copy, then
await-ready, then the workload, then the deferred cleanup, in that
strict order.  The pre-emptive cleanup runs first but its outcome does
not gate the workload. -/
theorem container_workload_gating (m : MySQL) (env : Env)
    (h : Event.workloadInvoked ∈ (containerRun m env).2) :
    seedSQLOf m env ≠ "" ∧
    env.runCmdResult = .ok () ∧
    env.copyCmdResult = .ok () ∧
    env.waitResult = .ok () ∧
    (containerRun m env).2 =
      [Event.preCleanup, Event.ranCmd Cmd.runContainer,
       Event.ranCmd (Cmd.copySeed (seedScript (seedSQLOf m env))),
       Event.ranCmd Cmd.waitForInit, Event.workloadInvoked,
       Event.deferredCleanup] := by
  have hb := (workload_mem_containerRun m env).mp h
  obtain ⟨h1, h2, h3, h4, h5⟩ := containerBody_of_workload m env hb
  refine ⟨h1, h2, h3, h4, ?_⟩
  rw [containerRun, h5]
  rfl

/-- Witness for C1 at a concrete seeded all-success run. -/
theorem container_workload_gating_witness :
    seedSQLOf exMySQL allOkEnv ≠ "" ∧
    allOkEnv.runCmdResult = .ok () ∧
    allOkEnv.copyCmdResult = .ok () ∧
    allOkEnv.waitResult = .ok () ∧
    (containerRun exMySQL allOkEnv).2 =
      [Event.preCleanup, Event.ranCmd Cmd.runContainer,
       Event.ranCmd (Cmd.copySeed (seedScript (seedSQLOf exMySQL allOkEnv))),
       Event.ranCmd Cmd.waitForInit, Event.workloadInvoked,
       Event.deferredCleanup] :=
  container_workload_gating exMySQL allOkEnv (by decide)

/-- C2: on every invocation of `Container` — whatever the workload does
(return, error, or panic) and whether or not an earlier step failed —
the deferred cleanup requests a container stop exactly once, and the
outcomes of the two cleanup calls never alter the result returned to
the caller. -/
theorem container_teardown_once (m : MySQL) (env : Env) (x y : Option String) :
    (containerRun m env).2.count Event.deferredCleanup = 1 ∧
    (containerRun m { env with preCleanupErr := x, deferredCleanupErr := y }).1 =
      (containerRun m env).1 := by
  refine ⟨?_, by rw [containerRun_cleanup_invariant]⟩
  have hnd := containerBody_no_deferred m env
  rw [containerRun]
  simp [List.count_cons, List.count_append, List.count_eq_zero.mpr hnd]

/-- Witness for C2 at a concrete panicking workload. -/
theorem container_teardown_once_witness :
    (containerRun exMySQL { allOkEnv with workload := .panics }).2.count
        Event.deferredCleanup = 1 ∧
    (containerRun exMySQL
        { { allOkEnv with workload := .panics } with
            preCleanupErr := some "boom", deferredCleanupErr := some "boom" }).1 =
      (containerRun exMySQL { allOkEnv with workload := .panics }).1 :=
  container_teardown_once exMySQL { allOkEnv with workload := .panics }
    (some "boom") (some "boom")

/-- C4 counterexample: a failing pre-emptive cleanup is not returned to
the caller — with every later step succeeding, `Container` returns the
workload's `nil` result, not the cleanup error. -/
theorem precleanup_failure_not_returned :
    preFailEnv.preCleanupErr = some "error in command : exit status 1 -- " ∧
    (containerRun exMySQL preFailEnv).1 = Outcome.ok := by
  constructor
  · decide
  · decide

/-- C4 (amended): the deferred cleanup is always performed; whenever
the workload never ran, an error is returned; a file-read, temp-file,
chmod or write failure aborts with exactly that error and without the
workload running; a failure of the first failing command of the loop
aborts with that error wrapped by `wrapErr`, which enriches it with the
captured container logs exactly when they are nonempty.  A failing
pre-emptive cleanup, by contrast, aborts nothing (its result is
discarded). -/
theorem container_prestep_abort (m : MySQL) (env : Env) :
    Event.deferredCleanup ∈ (containerRun m env).2 ∧
    (Event.workloadInvoked ∉ (containerRun m env).2 →
      ∃ e, (containerRun m env).1 = Outcome.err e) ∧
    (∀ e, m.Path ≠ "" → env.readFileResult = .error e →
      (containerRun m env).1 = Outcome.err e ∧
      Event.workloadInvoked ∉ (containerRun m env).2) ∧
    (∀ e contents, fileRead m env = .ok contents → seedSQLOf m env ≠ "" →
      env.tempFileResult = .error e →
      (containerRun m env).1 = Outcome.err e ∧
      Event.workloadInvoked ∉ (containerRun m env).2) ∧
    (∀ e contents, fileRead m env = .ok contents → seedSQLOf m env ≠ "" →
      env.tempFileResult = .ok () → env.chmodResult = .error e →
      (containerRun m env).1 = Outcome.err e ∧
      Event.workloadInvoked ∉ (containerRun m env).2) ∧
    (∀ e contents, fileRead m env = .ok contents → seedSQLOf m env ≠ "" →
      env.tempFileResult = .ok () → env.chmodResult = .ok () →
      env.writeResult = .error e →
      (containerRun m env).1 = Outcome.err e ∧
      Event.workloadInvoked ∉ (containerRun m env).2) ∧
    (∀ e, preludeOk m env → firstCmdErr m env = some e →
      (containerRun m env).1 = Outcome.err (wrapErr env e) ∧
      Event.workloadInvoked ∉ (containerRun m env).2) ∧
    (∀ e, env.logs ≠ "" → wrapErr env e = enrichWithLogs e env.logs) := by
  refine ⟨by rw [containerRun]; simp, ?_, ?_, ?_, ?_, ?_, ?_, ?_⟩
  · intro h
    rw [workload_mem_containerRun] at h
    obtain ⟨e, he⟩ := containerBody_no_workload m env h
    exact ⟨e, by rw [containerRun]; exact he⟩
  · intro e hP herr
    have hbody : containerBody m env = (.err e, []) := by
      rw [containerBody, fileRead, if_pos hP, herr]
    rw [containerRun, hbody]
    exact ⟨rfl, by simp⟩
  · intro e contents hf hsql ht
    have hb := buildSQL_fileRead m env contents hf
    have hsql' : buildSQL m.Path contents m.Query ≠ "" := by
      rw [hb]; exact hsql
    have hbody : containerBody m env = (.err e, []) := by
      rw [containerBody, hf]
      dsimp only
      rw [if_pos hsql', ht]
    rw [containerRun, hbody]
    exact ⟨rfl, by simp⟩
  · intro e contents hf hsql ht hc
    have hb := buildSQL_fileRead m env contents hf
    have hsql' : buildSQL m.Path contents m.Query ≠ "" := by
      rw [hb]; exact hsql
    have hbody : containerBody m env = (.err e, []) := by
      rw [containerBody, hf]
      dsimp only
      rw [if_pos hsql', ht]
      dsimp only
      rw [hc]
    rw [containerRun, hbody]
    exact ⟨rfl, by simp⟩
  · intro e contents hf hsql ht hc hw
    have hb := buildSQL_fileRead m env contents hf
    have hsql' : buildSQL m.Path contents m.Query ≠ "" := by
      rw [hb]; exact hsql
    have hbody : containerBody m env = (.err e, []) := by
      rw [containerBody, hf]
      dsimp only
      rw [if_pos hsql', ht]
      dsimp only
      rw [hc]
      dsimp only
      rw [hw]
    rw [containerRun, hbody]
    exact ⟨rfl, by simp⟩
  · intro e hpre hcmd
    have hbody := containerBody_of_preludeOk m env hpre
    rw [firstCmdErr] at hcmd
    rcases hr : (runCmds env (seededOf m env) (cmdsOf m env)).1 with e2 | u
    · rw [hr] at hcmd
      dsimp only at hcmd
      injection hcmd with hcmd
      rcases hfull : runCmds env (seededOf m env) (cmdsOf m env) with ⟨r, tr⟩
      rw [hfull] at hr
      dsimp only at hr
      subst hr
      have hrall : runAll env (cmdsOf m env) (seededOf m env) =
          (.err (wrapErr env e2), tr) := by
        rw [runAll, hfull]
      constructor
      · rw [containerRun, hbody, hrall, hcmd]
      · rw [workload_mem_containerRun, hbody, hrall]
        intro hmem
        have := runCmds_snd_events env (seededOf m env) (cmdsOf m env)
          Event.workloadInvoked
        rw [hfull] at this
        obtain ⟨c, hc⟩ := this hmem
        exact absurd hc (by simp)
    · rw [hr] at hcmd
      simp at hcmd
  · intro e hlogs
    rw [wrapErr, if_pos hlogs]

/-- Witness for C4: a failing launch command with nonempty logs aborts
with the log-enriched error, without the workload running, with the
deferred cleanup still performed. -/
theorem container_prestep_abort_witness :
    (containerRun exMySQL launchFailEnv).1 =
      Outcome.err (wrapErr launchFailEnv "error in command : exit status 125 -- ") ∧
    Event.workloadInvoked ∉ (containerRun exMySQL launchFailEnv).2 :=
  (container_prestep_abort exMySQL launchFailEnv).2.2.2.2.2.2.1
    "error in command : exit status 125 -- "
    ⟨fun _ => rfl, fun _ => ⟨rfl, rfl, rfl⟩⟩ (by decide)

/-- C6: with a nonempty file payload and a nonempty inline payload, the
script seeded into the container is the file contents, then the
separator `"; "`, then the inline text, then `";"` and the marker
statement, in exactly that order; on the claim's concrete payloads the
script is the exact literal of the specification, and the `docker cp`
command of a fully successful run carries exactly that script. -/
theorem seed_concatenation (pth q contents name : String) (port : Nat)
    (hp : pth ≠ "") (hq : q ≠ "") :
    seedScript (buildSQL pth contents q) =
      contents ++ "; " ++ q ++ ";" ++ markerStmt ∧
    seedScript (buildSQL "schema.sql" "CREATE TABLE t();"
        "INSERT INTO t VALUES (1);") =
      "CREATE TABLE t();; INSERT INTO t VALUES (1);;CREATE TABLE mysql.z_z_(id integer);" ∧
    Event.ranCmd (Cmd.copySeed (contents ++ "; " ++ q ++ ";" ++ markerStmt)) ∈
      (containerRun ⟨name, port, pth, q⟩ (happySeedEnv contents)).2 := by
  have hbuild : buildSQL pth contents q = contents ++ "; " ++ q := by
    simp only [buildSQL]
    rw [if_pos hq, if_pos hp]
  refine ⟨by rw [hbuild, seedScript], by decide, ?_⟩
  have henv : fileRead ⟨name, port, pth, q⟩ (happySeedEnv contents) =
      .ok contents := by
    rw [fileRead, if_pos hp]
    rfl
  have hsql : buildSQL pth contents q ≠ "" := by
    rw [hbuild]; exact sep_append_ne_empty contents q
  have hbody : containerBody ⟨name, port, pth, q⟩ (happySeedEnv contents) =
      runAll (happySeedEnv contents)
        [.runContainer, .copySeed (seedScript (buildSQL pth contents q)),
         .waitForInit] true := by
    rw [containerBody, henv]
    dsimp only
    rw [if_pos hsql]
    rfl
  have hall : ∀ c ∈ ([.runContainer,
      .copySeed (seedScript (buildSQL pth contents q)),
      .waitForInit] : List Cmd),
      cmdResult (happySeedEnv contents) true c = .ok () := by
    intro c hc
    fin_cases hc <;> rfl
  rw [containerRun, hbody, runAll_of_all_ok _ _ _ hall]
  rw [hbuild, seedScript]
  simp

/-- Witness for C6 at the specification's concrete payloads. -/
theorem seed_concatenation_witness :
    seedScript (buildSQL "schema.sql" "CREATE TABLE t();"
        "INSERT INTO t VALUES (1);") =
      "CREATE TABLE t();" ++ "; " ++ "INSERT INTO t VALUES (1);" ++ ";" ++
        markerStmt ∧
    seedScript (buildSQL "schema.sql" "CREATE TABLE t();"
        "INSERT INTO t VALUES (1);") =
      "CREATE TABLE t();; INSERT INTO t VALUES (1);;CREATE TABLE mysql.z_z_(id integer);" ∧
    Event.ranCmd (Cmd.copySeed ("CREATE TABLE t();" ++ "; " ++
        "INSERT INTO t VALUES (1);" ++ ";" ++ markerStmt)) ∈
      (containerRun ⟨"svc", 3306, "schema.sql", "INSERT INTO t VALUES (1);"⟩
        (happySeedEnv "CREATE TABLE t();")).2 :=
  seed_concatenation "schema.sql" "INSERT INTO t VALUES (1);"
    "CREATE TABLE t();" "svc" 3306 (by decide) (by decide)

/-- C7: cleaning up a name with no running container matching it leaves
the engine's running containers untouched, and the outcomes of the
`CleanupContainer` calls made by the container lifecycle never reach
its caller: `Container`'s result is unchanged under any cleanup
outcome. -/
theorem cleanup_noop_when_absent (running : List String) (name : String)
    (h : name ∉ running) :
    (CleanupContainer running name).2 = running ∧
    ∀ (m : MySQL) (env : Env) (x y : Option String),
      (containerRun m { env with preCleanupErr := x, deferredCleanupErr := y }).1 =
        (containerRun m env).1 := by
  constructor
  · have hf : running.filter (fun c => c == name) = [] := by
      refine List.filter_eq_nil_iff.mpr ?_
      intro a ha
      simp only [beq_iff_eq]
      intro hcon
      exact h (hcon ▸ ha)
    rw [CleanupContainer, hf]
    rfl
  · intro m env x y
    rw [containerRun_cleanup_invariant]

/-- Witness for C7 at a concrete engine state and name. -/
theorem cleanup_noop_when_absent_witness :
    (CleanupContainer ["easycontainers-mysql-a"] "easycontainers-mysql-b").2 =
      ["easycontainers-mysql-a"] ∧
    ∀ (m : MySQL) (env : Env) (x y : Option String),
      (containerRun m { env with preCleanupErr := x, deferredCleanupErr := y }).1 =
        (containerRun m env).1 :=
  cleanup_noop_when_absent ["easycontainers-mysql-a"] "easycontainers-mysql-b"
    (by decide)

/-- C9: with no file path and no inline query configured, no seed copy
command is ever issued, yet the await-ready step still polls for the
marker table that only a seed script creates; so if the launch command
succeeds, `Container` returns the (possibly log-enriched) timeout error
of the await-ready step, without ever invoking the workload closure. -/
theorem no_seed_never_ready (name : String) (port : Nat) (env : Env)
    (hrun : env.runCmdResult = .ok ()) :
    (containerRun ⟨name, port, "", ""⟩ env).1 =
      Outcome.err (wrapErr env timeoutMsg) ∧
    Event.workloadInvoked ∉ (containerRun ⟨name, port, "", ""⟩ env).2 ∧
    (∀ s, Event.ranCmd (Cmd.copySeed s) ∉
      (containerRun ⟨name, port, "", ""⟩ env).2) ∧
    (containerRun ⟨name, port, "", ""⟩ env).2 =
      [Event.preCleanup, Event.ranCmd Cmd.runContainer,
       Event.ranCmd Cmd.waitForInit, Event.deferredCleanup] := by
  have hcmds : runCmds env false [Cmd.runContainer, Cmd.waitForInit] =
      (.error timeoutMsg,
       [Event.ranCmd Cmd.runContainer, Event.ranCmd Cmd.waitForInit]) := by
    simp only [runCmds, cmdResult, hrun]
    rfl
  have hbody : containerBody ⟨name, port, "", ""⟩ env =
      (.err (wrapErr env timeoutMsg),
       [Event.ranCmd Cmd.runContainer, Event.ranCmd Cmd.waitForInit]) := by
    rw [containerBody]
    have hfr : fileRead ⟨name, port, "", ""⟩ env = .ok "" := by
      rw [fileRead]; rfl
    rw [hfr]
    dsimp only
    rw [if_neg (by decide)]
    rw [runAll, hcmds]
  rw [containerRun, hbody]
  refine ⟨rfl, by simp, ?_, rfl⟩
  intro s
  simp

/-- Witness for C9: a concrete seedless handle in an otherwise
all-success environment times out without running the workload. -/
theorem no_seed_never_ready_witness :
    (containerRun ⟨"svc", 3306, "", ""⟩ allOkEnv).1 =
      Outcome.err (wrapErr allOkEnv timeoutMsg) ∧
    Event.workloadInvoked ∉ (containerRun ⟨"svc", 3306, "", ""⟩ allOkEnv).2 ∧
    (∀ s, Event.ranCmd (Cmd.copySeed s) ∉
      (containerRun ⟨"svc", 3306, "", ""⟩ allOkEnv).2) ∧
    (containerRun ⟨"svc", 3306, "", ""⟩ allOkEnv).2 =
      [Event.preCleanup, Event.ranCmd Cmd.runContainer,
       Event.ranCmd Cmd.waitForInit, Event.deferredCleanup] :=
  no_seed_never_ready "svc" 3306 allOkEnv rfl

end EasyContainers
